import Mathlib

/-!
Verification of the TalentFlow data-persistence core (`src/services/database.js`)
against its design specification.

The development shallowly embeds the Dexie-backed storage layer and the
`DatabaseService` record-service methods as pure Lean functions over an explicit
`DB` state.  JavaScript objects become structures, JS `undefined` becomes
`none`, Dexie tables become lists kept in primary-key insertion order, and
ISO-timestamp strings produced by `new Date().toISOString()` are abstracted as
`Time := Nat` values supplied by the caller (`now` parameters).  The factory
functions of `../types` are not part of the provided sources; they are modelled
from the specification (see the `Types` namespace).
-/

/-! ## JavaScript string primitives -/

/-- Embedding of JS `String.prototype.toLowerCase` restricted to ASCII, which is
the alphabet relevant to slugs. -/
def jsToLowerChar (c : Char) : Char :=
  if 'A' ≤ c ∧ c ≤ 'Z' then Char.ofNat (c.toNat + 32) else c

/-- Embedding of the JS regex class `\s` (ASCII part). -/
def jsIsWs (c : Char) : Bool :=
  c = ' ' ∨ c = '\t' ∨ c = '\n' ∨ c = '\x0d' ∨ c = '\x0b' ∨ c = '\x0c'

/-- Characters kept by `replace(/[^a-z0-9\s-]/g, '')` in `generateSlug`. -/
def slugKeepChar (c : Char) : Bool :=
  ('a' ≤ c ∧ c ≤ 'z') ∨ ('0' ≤ c ∧ c ≤ '9') ∨ jsIsWs c ∨ c = '-'

/-- Embedding of `replace(/\s+/g, '-')`: each maximal whitespace run becomes a
single hyphen.  The boolean argument records whether the previous character was
part of a whitespace run. -/
def replWsRuns : Bool → List Char → List Char
  | _, [] => []
  | prevWs, c :: cs =>
    if jsIsWs c then
      if prevWs then replWsRuns true cs else '-' :: replWsRuns true cs
    else
      c :: replWsRuns false cs

/-- Embedding of the hyphen-collapsing replace (regex `-+`, global): each
maximal hyphen run becomes a single hyphen. -/
def collapseHyphens : Bool → List Char → List Char
  | _, [] => []
  | prevHy, c :: cs =>
    if c = '-' then
      if prevHy then collapseHyphens true cs else '-' :: collapseHyphens true cs
    else
      c :: collapseHyphens false cs

/-- Embedding of JS `String.prototype.trim`.  The source calls `.trim('-')`,
but JS `trim` ignores its argument and strips whitespace only. -/
def jsTrim (l : List Char) : List Char :=
  ((l.dropWhile jsIsWs).reverse.dropWhile jsIsWs).reverse

/-- Decimal digit character, as produced by JS number-to-string conversion
(only arguments below 10 occur). -/
def decDigitChar : Nat → Char
  | 0 => '0'
  | 1 => '1'
  | 2 => '2'
  | 3 => '3'
  | 4 => '4'
  | 5 => '5'
  | 6 => '6'
  | 7 => '7'
  | 8 => '8'
  | 9 => '9'
  | _ => '*'

/-- Little-endian decimal digit-character list of `n`; the first argument is
fuel (any fuel `≥ n` is enough, see `natDecAux_eval`). -/
def natDecAux : Nat → Nat → List Char
  | 0, _ => []
  | fuel + 1, n => if n = 0 then [] else decDigitChar (n % 10) :: natDecAux fuel (n / 10)

/-- Embedding of JS number-to-string conversion (template literal `${counter}`)
for nonnegative integers. -/
def natDecimal (n : Nat) : String :=
  if n = 0 then "0" else String.mk (natDecAux n n).reverse

/-- Numeric value of a decimal digit character. -/
def decCharVal (c : Char) : Nat := c.toNat - 48

/-- Value of a little-endian decimal digit-character list. -/
def decValRev : List Char → Nat
  | [] => 0
  | c :: cs => decCharVal c + 10 * decValRev cs

/-- Substring test used to embed JS `String.prototype.includes`:
`listIsPre p l` holds when `p` is a leading segment of `l`. -/
def listIsPre : List Char → List Char → Bool
  | [], _ => true
  | _ :: _, [] => false
  | a :: as, b :: bs => a = b && listIsPre as bs

/-- `listHasSub needle hay`: does `needle` occur contiguously in `hay`? -/
def listHasSub (needle : List Char) : List Char → Bool
  | [] => listIsPre needle []
  | c :: cs => listIsPre needle (c :: cs) || listHasSub needle cs

/-- Embedding of JS `hay.includes(needle)`. -/
def jsIncludes (hay needle : String) : Bool :=
  listHasSub needle.data hay.data

/-- Embedding of JS `s.toLowerCase()` (ASCII). -/
def jsLower (s : String) : String := String.mk (s.data.map jsToLowerChar)

/-- JS truthiness of a possibly-absent string (`undefined` and `""` are falsy). -/
def strTruthy : Option String → Bool
  | none => false
  | some s => s ≠ ""

/-- JS truthiness of a possibly-absent number (`undefined` and `0` are falsy). -/
def numTruthy : Option Nat → Bool
  | none => false
  | some n => n ≠ 0

/-- Rendering of a possibly-absent JS string inside a template literal:
`undefined` prints as `"undefined"`. -/
def jsStr : Option String → String
  | none => "undefined"
  | some s => s

example : replWsRuns false "a  b".data = "a-b".data := by decide
example : collapseHyphens false "a--b-".data = "a-b-".data := by decide
example : natDecimal 0 = "0" := by decide
example : natDecimal 12 = "12" := by decide
example : jsIncludes "backend engineer" "end" = true := by decide
example : jsIncludes "backend" "ab" = false := by decide

/-! ## Data model

Stored records mirror the JS objects held in the Dexie tables.  Identifiers
are `Option Nat` because JS objects may lack an `id` before insertion
(`none` = JS `undefined`); every stored row has `id = some n`.  Timestamps are
`Option Time` (`none` = field absent). -/

/-- Abstract ISO-timestamp value (`new Date().toISOString()` output). -/
abbrev Time := Nat

structure Job where
  id : Option Nat := none
  title : String := ""
  slug : String := ""
  description : String := ""
  requirements : List String := []
  benefits : List String := []
  tags : List String := []
  location : String := ""
  salary : String := ""
  type : String := "full-time"
  department : String := ""
  status : String := "active"
  order : Int := 0
  createdAt : Option Time := none
  updatedAt : Option Time := none
deriving DecidableEq, Repr

structure Candidate where
  id : Option Nat := none
  name : String := ""
  email : String := ""
  phone : String := ""
  stage : String := "applied"
  jobId : Option Nat := none
  coverLetter : String := ""
  createdAt : Option Time := none
  updatedAt : Option Time := none
deriving DecidableEq, Repr

structure Assessment where
  id : Option Nat := none
  jobId : Option Nat := none
  title : String := ""
  description : String := ""
  createdAt : Option Time := none
  updatedAt : Option Time := none
deriving DecidableEq, Repr

/-- Metadata payloads attached to timeline events; each field is present only
for the event kinds that set it (JS object literals with differing keys). -/
structure EventMetadata where
  stage : Option String := none
  fromStage : Option String := none
  toStage : Option String := none
  jobId : Option Nat := none
  applicationId : Option Nat := none
  status : Option String := none
  oldStatus : Option String := none
  newStatus : Option String := none
  notes : Option String := none
  noteId : Option Nat := none
  assessmentId : Option Nat := none
  responseId : Option Nat := none
deriving DecidableEq, Repr

structure TimelineEvent where
  id : Option Nat := none
  candidateId : Option Nat := none
  type : String := ""
  title : String := ""
  description : String := ""
  metadata : EventMetadata := {}
  createdAt : Option Time := none
deriving DecidableEq, Repr

structure Note where
  id : Option Nat := none
  candidateId : Option Nat := none
  content : String := ""
  createdAt : Option Time := none
  updatedAt : Option Time := none
deriving DecidableEq, Repr

structure AssessmentResponse where
  id : Option Nat := none
  candidateId : Option Nat := none
  assessmentId : Option Nat := none
  createdAt : Option Time := none
deriving DecidableEq, Repr

structure JobApplication where
  id : Option Nat := none
  candidateId : Option Nat := none
  jobId : Option Nat := none
  jobTitle : String := ""
  status : String := "applied"
  notes : String := ""
  appliedAt : Option Time := none
  updatedAt : Option Time := none
deriving DecidableEq, Repr

/-- The whole Dexie store (`TalentFlowDB`).  Tables are lists in primary-key
insertion order; `next*Id` are the per-table auto-increment key generators of
the `++id` schema declarations.  The unused `settings` table is omitted: no
embedded operation touches it. -/
structure DB where
  jobs : List Job := []
  candidates : List Candidate := []
  assessments : List Assessment := []
  timelineEvents : List TimelineEvent := []
  notes : List Note := []
  assessmentResponses : List AssessmentResponse := []
  jobApplications : List JobApplication := []
  nextJobId : Nat := 1
  nextCandidateId : Nat := 1
  nextAssessmentId : Nat := 1
  nextEventId : Nat := 1
  nextNoteId : Nat := 1
  nextResponseId : Nat := 1
  nextApplicationId : Nat := 1
deriving DecidableEq, Repr

/-- The empty freshly-opened store. -/
def emptyDB : DB := {}

/-! ## Factory functions (`../types`)

The module `src/types` is imported by `database.js` but its source is not part
of the provided files; the factories below are therefore modelled from the
specification, not translated from source. -/

namespace Types

/-- Modelled from the spec: factory input for `createJob` — a partial record;
`none` marks an omitted field. -/
structure JobInput where
  id : Option Nat := none
  title : Option String := none
  slug : Option String := none
  description : Option String := none
  requirements : Option (List String) := none
  benefits : Option (List String) := none
  tags : Option (List String) := none
  location : Option String := none
  salary : Option String := none
  type : Option String := none
  department : Option String := none
  status : Option String := none
  order : Option Int := none
deriving DecidableEq, Repr

/-- Modelled from the spec: `createJob` factory (`src/types`, missing from the
provided sources).  Per §4.1 it returns a fully-populated record with defaults
filled in for omitted fields and no side effects; per §3 lifecycle notes,
timestamps are stamped at the storage boundary, not by the factory.  The `id`
passes through unchanged (the service decides `put` vs `add` from it). -/
def createJob (d : JobInput) : Job :=
  { id := d.id
    title := d.title.getD ""
    slug := d.slug.getD ""
    description := d.description.getD ""
    requirements := d.requirements.getD []
    benefits := d.benefits.getD []
    tags := d.tags.getD []
    location := d.location.getD ""
    salary := d.salary.getD ""
    type := d.type.getD "full-time"
    department := d.department.getD ""
    status := d.status.getD "active"
    order := d.order.getD 0 }

/-- Modelled from the spec: factory input for `createCandidate`. -/
structure CandidateInput where
  id : Option Nat := none
  name : Option String := none
  email : Option String := none
  phone : Option String := none
  stage : Option String := none
  jobId : Option Nat := none
  coverLetter : Option String := none
deriving DecidableEq, Repr

/-- Modelled from the spec: `createCandidate` factory; defaults filled for
omitted fields (default stage enum value "applied"), timestamps left to the
storage boundary. -/
def createCandidate (d : CandidateInput) : Candidate :=
  { id := d.id
    name := d.name.getD ""
    email := d.email.getD ""
    phone := d.phone.getD ""
    stage := d.stage.getD "applied"
    jobId := d.jobId
    coverLetter := d.coverLetter.getD "" }

/-- Modelled from the spec: factory input for `createTimelineEvent`. -/
structure TimelineEventInput where
  candidateId : Option Nat := none
  type : Option String := none
  title : Option String := none
  description : Option String := none
  metadata : EventMetadata := {}
deriving DecidableEq, Repr

/-- Modelled from the spec: `createTimelineEvent` factory; defaults filled,
no timestamp stamping by the factory. -/
def createTimelineEvent (d : TimelineEventInput) : TimelineEvent :=
  { candidateId := d.candidateId
    type := d.type.getD ""
    title := d.title.getD ""
    description := d.description.getD ""
    metadata := d.metadata }

/-- Modelled from the spec: factory input for `createJobApplication`. -/
structure JobApplicationInput where
  candidateId : Option Nat := none
  jobId : Option Nat := none
  jobTitle : Option String := none
  status : Option String := none
  notes : Option String := none
  appliedAt : Option Time := none
deriving DecidableEq, Repr

/-- Modelled from the spec: `createJobApplication` factory; defaults filled
(default status enum value "applied"). -/
def createJobApplication (d : JobApplicationInput) : JobApplication :=
  { candidateId := d.candidateId
    jobId := d.jobId
    jobTitle := d.jobTitle.getD ""
    status := d.status.getD "applied"
    notes := d.notes.getD ""
    appliedAt := d.appliedAt }

end Types

/-! ## Storage engine (`TalentFlowDB`)

Dexie table primitives specialised to each table.  The `creating`/`updating`
hooks registered in the `TalentFlowDB` constructor exist for the `jobs`,
`candidates`, `assessments` and `notes` tables only; they stamp
`createdAt`/`updatedAt` on insert and `updatedAt` on update.  The
`timelineEvents`, `assessmentResponses`, `jobApplications` and `settings`
tables have no hooks. -/

/-- Which tables have a `creating` hook registered in the constructor. -/
def hasCreatingHook : String → Bool
  | "jobs" => true
  | "candidates" => true
  | "assessments" => true
  | "notes" => true
  | _ => false

/-- Which tables have an `updating` hook registered in the constructor. -/
def hasUpdatingHook : String → Bool
  | "jobs" => true
  | "candidates" => true
  | "assessments" => true
  | "notes" => true
  | _ => false

/-- Jobs-table `add` with engine-generated key; the `creating` hook stamps both
timestamps on the inserted object (which Dexie mutates in place, so the caller
observes them too). -/
def addJobRow (now : Time) (j : Job) (db : DB) : Job × DB :=
  let stored := { j with id := some db.nextJobId, createdAt := some now, updatedAt := some now }
  (stored, { db with jobs := db.jobs ++ [stored], nextJobId := db.nextJobId + 1 })

/-- Jobs-table `put` with explicit key `k`.  If the key exists the row is
replaced and the `updating` hook stamps `updatedAt` (the caller's object is not
mutated in that case); otherwise this inserts like `add`, bumping the key
generator past `k`. -/
def putJobRow (now : Time) (j : Job) (k : Nat) (db : DB) : Job × DB :=
  if db.jobs.any (·.id = some k) then
    let stored := { j with id := some k, updatedAt := some now }
    (stored, { db with jobs := db.jobs.map (fun x => if x.id = some k then stored else x) })
  else
    let stored := { j with id := some k, createdAt := some now, updatedAt := some now }
    (stored, { db with jobs := db.jobs ++ [stored], nextJobId := max db.nextJobId (k + 1) })

/-- Patch shape passed to `db.jobs.update` by the embedded operations
(`reorderJobs` patches only `order`). -/
structure JobPatch where
  order : Option Int := none
deriving DecidableEq, Repr

/-- Effect of applying a job patch to a row: patched fields plus the
`updatedAt` stamp added by the jobs `updating` hook. -/
def applyJobPatch (p : JobPatch) (now : Time) (x : Job) : Job :=
  { x with order := p.order.getD x.order, updatedAt := some now }

/-- Jobs-table `update(k, patch)`: applies the patch to the row with key `k`
(no-op when the key resolves to no row); the `updating` hook adds
`updatedAt := now` to the modifications. -/
def updateJobRow (k : Nat) (p : JobPatch) (now : Time) (db : DB) : DB :=
  { db with jobs := db.jobs.map (fun x =>
      if x.id = some k then applyJobPatch p now x else x) }

/-- Jobs-table `delete(k)`. -/
def deleteJobRow (k : Nat) (db : DB) : DB :=
  { db with jobs := db.jobs.filter (fun x => ¬ x.id = some k) }

/-- Jobs-table `get(k)`. -/
def getJob (k : Nat) (db : DB) : Option Job :=
  db.jobs.find? (·.id = some k)

/-- The jobs table in `orderBy('order')` traversal order: ascending by the
`order` field, ties in primary-key order (insertion sort is stable). -/
def sortByOrder (l : List Job) : List Job :=
  l.insertionSort (fun a b => a.order ≤ b.order)

/-- Candidates-table `add`; the `creating` hook stamps both timestamps. -/
def addCandidateRow (now : Time) (c : Candidate) (db : DB) : Candidate × DB :=
  let stored := { c with id := some db.nextCandidateId, createdAt := some now, updatedAt := some now }
  (stored, { db with candidates := db.candidates ++ [stored], nextCandidateId := db.nextCandidateId + 1 })

/-- Candidates-table `put` with explicit key `k` (see `putJobRow`). -/
def putCandidateRow (now : Time) (c : Candidate) (k : Nat) (db : DB) : Candidate × DB :=
  if db.candidates.any (·.id = some k) then
    let stored := { c with id := some k, updatedAt := some now }
    (stored, { db with candidates := db.candidates.map (fun x => if x.id = some k then stored else x) })
  else
    let stored := { c with id := some k, createdAt := some now, updatedAt := some now }
    (stored, { db with candidates := db.candidates ++ [stored], nextCandidateId := max db.nextCandidateId (k + 1) })

/-- Partial patch passed to `db.candidates.update`; `none` marks a key absent
from the JS patch object. -/
structure CandidatePatch where
  name : Option String := none
  email : Option String := none
  phone : Option String := none
  stage : Option String := none
  jobId : Option Nat := none
  coverLetter : Option String := none
deriving DecidableEq, Repr

/-- Effect of applying a candidate patch to a row: patched fields plus the
`updatedAt` stamp added by the candidates `updating` hook. -/
def applyCandidatePatch (p : CandidatePatch) (now : Time) (x : Candidate) : Candidate :=
  { x with
    name := p.name.getD x.name
    email := p.email.getD x.email
    phone := p.phone.getD x.phone
    stage := p.stage.getD x.stage
    jobId := if p.jobId.isSome then p.jobId else x.jobId
    coverLetter := p.coverLetter.getD x.coverLetter
    updatedAt := some now }

/-- Candidates-table `update(k, patch)`; the `updating` hook stamps
`updatedAt`; no-op when `k` resolves to no row. -/
def updateCandidateRow (k : Nat) (p : CandidatePatch) (now : Time) (db : DB) : DB :=
  { db with candidates := db.candidates.map (fun x =>
      if x.id = some k then applyCandidatePatch p now x else x) }

/-- Candidates-table `get(k)`. -/
def getCandidate (k : Nat) (db : DB) : Option Candidate :=
  db.candidates.find? (·.id = some k)

/-- Candidates-table `delete(k)`. -/
def deleteCandidateRow (k : Nat) (db : DB) : DB :=
  { db with candidates := db.candidates.filter (fun x => ¬ x.id = some k) }

/-- `db.candidates.where('jobId').equals(k).delete()`. -/
def deleteCandidatesByJob (k : Nat) (db : DB) : DB :=
  { db with candidates := db.candidates.filter (fun x => ¬ x.jobId = some k) }

/-- `db.assessments.where('jobId').equals(k).delete()`. -/
def deleteAssessmentsByJob (k : Nat) (db : DB) : DB :=
  { db with assessments := db.assessments.filter (fun x => ¬ x.jobId = some k) }

/-- `db.timelineEvents.where('candidateId').equals(k).delete()`. -/
def deleteEventsByCandidate (k : Nat) (db : DB) : DB :=
  { db with timelineEvents := db.timelineEvents.filter (fun x => ¬ x.candidateId = some k) }

/-- `db.notes.where('candidateId').equals(k).delete()`. -/
def deleteNotesByCandidate (k : Nat) (db : DB) : DB :=
  { db with notes := db.notes.filter (fun x => ¬ x.candidateId = some k) }

/-- `db.assessmentResponses.where('candidateId').equals(k).delete()`. -/
def deleteResponsesByCandidate (k : Nat) (db : DB) : DB :=
  { db with assessmentResponses := db.assessmentResponses.filter (fun x => ¬ x.candidateId = some k) }

/-- TimelineEvents-table `add`; this table has no hooks, so nothing stamps
timestamps here. -/
def addEventRow (e : TimelineEvent) (db : DB) : TimelineEvent × DB :=
  let stored := { e with id := some db.nextEventId }
  (stored, { db with timelineEvents := db.timelineEvents ++ [stored], nextEventId := db.nextEventId + 1 })

/-- JobApplications-table `add`; this table has no hooks. -/
def addApplicationRow (a : JobApplication) (db : DB) : JobApplication × DB :=
  let stored := { a with id := some db.nextApplicationId }
  (stored, { db with jobApplications := db.jobApplications ++ [stored],
                     nextApplicationId := db.nextApplicationId + 1 })

/-- JobApplications-table `get(k)`. -/
def getApplication (k : Nat) (db : DB) : Option JobApplication :=
  db.jobApplications.find? (·.id = some k)

/-- `db.jobApplications.where('[candidateId+jobId]').equals([c, j]).first()`. -/
def findApplicationPair (c j : Nat) (db : DB) : Option JobApplication :=
  db.jobApplications.find? (fun a => a.candidateId = some c ∧ a.jobId = some j)

/-- Patch shape passed to `db.jobApplications.update` by
`updateJobApplicationStatus` (which supplies `updatedAt` itself — this table
has no `updating` hook). -/
structure ApplicationPatch where
  status : Option String := none
  notes : Option String := none
  updatedAt : Option Time := none
deriving DecidableEq, Repr

/-- JobApplications-table `update(k, patch)`: no hook fires, so `updatedAt`
changes exactly when the patch carries it. -/
def applyApplicationPatch (p : ApplicationPatch) (x : JobApplication) : JobApplication :=
  { x with
    status := p.status.getD x.status
    notes := p.notes.getD x.notes
    updatedAt := if p.updatedAt.isSome then p.updatedAt else x.updatedAt }

def updateApplicationRow (k : Nat) (p : ApplicationPatch) (db : DB) : DB :=
  { db with jobApplications := db.jobApplications.map (fun x =>
      if x.id = some k then applyApplicationPatch p x else x) }

/-- JS `Error` value thrown by the service layer; the spec's error taxonomy
names these by message (`NotFoundError`, `DuplicateApplicationError`). -/
structure JSError where
  message : String
deriving DecidableEq, Repr

/-- The spec's `NotFoundError` for jobs: `new Error('Job not found')`. -/
def jobNotFoundError : JSError := ⟨"Job not found"⟩

/-- The spec's `DuplicateApplicationError`:
`new Error('Candidate has already applied to this job')`. -/
def duplicateApplicationError : JSError := ⟨"Candidate has already applied to this job"⟩

/-- The spec's `NotFoundError` for applications:
`new Error('Application not found')`. -/
def applicationNotFoundError : JSError := ⟨"Application not found"⟩

/-! ## Record service (`DatabaseService`) -/

namespace DatabaseService

/-- Embedding of `DatabaseService.generateSlug`: lowercase, strip characters
outside `[a-z0-9\s-]`, replace whitespace runs by hyphens, collapse hyphen
runs, then `trim` (which in JS strips whitespace only, ignoring the `'-'`
argument). -/
def generateSlug (title : String) : String :=
  String.mk (jsTrim (collapseHyphens false
    (replWsRuns false ((title.data.map jsToLowerChar).filter slugKeepChar))))

/-- Embedding of `DatabaseService.isSlugUnique(slug, excludeId = null)`:
`excludeId = none` models the JS `null` default.  The comparison
`existingJob.id === excludeId` is strict, so it is true only when both sides
are the same number — JS `undefined === null` is false, hence the nested
match. -/
def isSlugUnique (slug : String) (excludeId : Option Nat) (db : DB) : Bool :=
  match db.jobs.find? (·.slug = slug) with
  | none => true
  | some j =>
    match j.id, excludeId with
    | some a, some b => a = b
    | _, _ => false

/-- The slug-probing `while` loop of `createJob`: while the current slug is
taken, try `base-counter` with `counter` incrementing from 1.  The JS loop has
no fuel; `slugFuel` below is always enough for it to reach a free slug (proved
in `slugLoop_not_taken`), so the embedding agrees with the terminating JS
executions. -/
def slugLoop (db : DB) (base : String) : Nat → Nat → String → String
  | 0, _, cur => cur
  | fuel + 1, counter, cur =>
    if isSlugUnique cur none db then cur
    else slugLoop db base fuel (counter + 1) (base ++ "-" ++ natDecimal counter)

/-- Fuel that always suffices for `slugLoop` to find a free slug. -/
def slugFuel (db : DB) : Nat := db.jobs.length + 2

/-- Embedding of `DatabaseService.createJob(jobData)`: derive the slug from the
title when absent, make it unique by probing, build the record through the
factory, then `put` (preserving a caller-supplied truthy id) or `add`.
Caller-supplied `id = some 0` (JS `id: 0`, falsy) is outside the embedded use;
every claim exercises `id = none` or positive ids. -/
def createJob (d : Types.JobInput) (now : Time) (db : DB) : Job × DB :=
  let d1 := if ¬ strTruthy d.slug ∧ strTruthy d.title then
      { d with slug := some (generateSlug (d.title.getD "")) } else d
  let d2 := if strTruthy d1.slug then
      { d1 with slug := some (slugLoop db (d1.slug.getD "") (slugFuel db) 1 (d1.slug.getD "")) }
    else d1
  let job := Types.createJob d2
  match job.id with
  | some k => if k ≠ 0 then putJobRow now job k db else addJobRow now job db
  | none => addJobRow now job db

/-- Embedding of `DatabaseService.getJobById`. -/
def getJobById (k : Nat) (db : DB) : Option Job := getJob k db

/-- Filters configuration accepted by `getJobs`; `none` marks an option the
caller did not pass (JS `undefined`). -/
structure JobFilters where
  status : Option String := none
  tags : Option (List String) := none
  search : Option String := none
  page : Option Nat := none
  pageSize : Option Nat := none
deriving DecidableEq, Repr

/-- The pagination sub-object of a paged `getJobs` result. -/
structure Pagination where
  page : Nat
  pageSize : Nat
  total : Nat
  totalPages : Nat
  hasMore : Bool
deriving DecidableEq, Repr

/-- Result of `getJobs`: either the plain array, or the
`{ data, pagination: {...} }` page object. -/
inductive JobsResult where
  | all : List Job → JobsResult
  | paged : List Job → Pagination → JobsResult
deriving DecidableEq, Repr

/-- The query pipeline of `getJobs` before pagination: `orderBy('order')`
traversal filtered by the status, tags and search options (each applied only
when truthy / non-empty, mirroring the JS `if` guards). -/
def jobsQuery (f : JobFilters) (db : DB) : List Job :=
  let q0 := sortByOrder db.jobs
  let q1 := if strTruthy f.status then q0.filter (fun job => job.status = f.status.getD "") else q0
  let q2 := match f.tags with
    | some ts => if ts.length > 0 then q1.filter (fun job => ts.any (fun tag => job.tags.contains tag)) else q1
    | none => q1
  match f.search with
  | some s =>
    if s ≠ "" then
      let term := jsLower s
      q2.filter (fun job =>
        jsIncludes (jsLower job.title) term ||
        jsIncludes (jsLower job.description) term ||
        job.tags.any (fun tag => jsIncludes (jsLower tag) term))
    else q2
  | none => q2

/-- Embedding of `DatabaseService.getJobs(filters)`: the filtered ordered
array, or — when both `page` and `pageSize` are truthy — the page object with
`total` the filtered count, `totalPages = Math.ceil(total / pageSize)` and
`hasMore = offset + pageSize < total`. -/
def getJobs (f : JobFilters) (db : DB) : JobsResult :=
  let jobs := jobsQuery f db
  match f.page, f.pageSize with
  | some p, some ps =>
    if p ≠ 0 ∧ ps ≠ 0 then
      let offset := (p - 1) * ps
      let total := jobs.length
      .paged ((jobs.drop offset).take ps)
        { page := p, pageSize := ps, total := total,
          totalPages := (total + ps - 1) / ps,
          hasMore := decide (offset + ps < total) }
    else .all jobs
  | _, _ => .all jobs

/-- Embedding of `DatabaseService.deleteJob(id)`, first awaited step:
`db.jobs.delete(id)`.  The three steps are three independent awaited Dexie
calls — the source wraps them in no transaction. -/
def deleteJobStep1 (k : Nat) (db : DB) : DB := deleteJobRow k db

/-- Second awaited step of `deleteJob`: delete candidates whose `jobId` is `k`. -/
def deleteJobStep2 (k : Nat) (db : DB) : DB := deleteCandidatesByJob k (deleteJobStep1 k db)

/-- Third awaited step of `deleteJob`: delete assessments whose `jobId` is `k`. -/
def deleteJobStep3 (k : Nat) (db : DB) : DB := deleteAssessmentsByJob k (deleteJobStep2 k db)

/-- Embedding of a complete (uninterrupted) run of `DatabaseService.deleteJob`. -/
def deleteJob (k : Nat) (db : DB) : DB := deleteJobStep3 k db

/-- The store states observable at the `await` boundaries of `deleteJob`:
because the three deletes are separate implicit transactions, the event loop
can run other work — and a failure can stop the cascade — between any two of
them, leaving the store in any of these states. -/
def deleteJobTrace (k : Nat) (db : DB) : List DB :=
  [db, deleteJobStep1 k db, deleteJobStep2 k db, deleteJobStep3 k db]

/-- Embedding of `DatabaseService.reorderJobs(fromOrder, toOrder)`: inside one
`db.transaction('rw', db.jobs, ...)`, load the jobs ordered by `order`, find
the first job holding each of the two order values, and when both exist update
their `order` fields (the jobs `updating` hook stamping `updatedAt`); returns
the reloaded ordered table. -/
def reorderJobs (fromOrder toOrder : Int) (now : Time) (db : DB) : List Job × DB :=
  let jobs := sortByOrder db.jobs
  match jobs.find? (·.order = fromOrder), jobs.find? (·.order = toOrder) with
  | some fromJob, some toJob =>
    let db1 := updateJobRow (fromJob.id.getD 0) { order := some toOrder } now db
    let db2 := updateJobRow (toJob.id.getD 0) { order := some fromOrder } now db1
    (sortByOrder db2.jobs, db2)
  | _, _ => (sortByOrder db.jobs, db)

/-- Embedding of `DatabaseService.createTimelineEvent(eventData)`. -/
def createTimelineEvent (d : Types.TimelineEventInput) (db : DB) : TimelineEvent × DB :=
  addEventRow (Types.createTimelineEvent d) db

/-- Embedding of `DatabaseService.createCandidate(candidateData)`: build the
record through the factory, `put` (truthy caller id) or `add`, then append the
initial `stage_change` timeline event "Application Submitted". -/
def createCandidate (d : Types.CandidateInput) (now : Time) (db : DB) : Candidate × DB :=
  let candidate := Types.createCandidate d
  let (stored, db1) :=
    match candidate.id with
    | some k => if k ≠ 0 then putCandidateRow now candidate k db else addCandidateRow now candidate db
    | none => addCandidateRow now candidate db
  let db2 := (createTimelineEvent
    { candidateId := stored.id
      type := some "stage_change"
      title := some "Application Submitted"
      description := some "Candidate applied for the position"
      metadata := { stage := some candidate.stage } } db1).2
  (stored, db2)

/-- Embedding of `DatabaseService.updateCandidate(id, updates)`: read the
pre-update record, apply the patch, and append a `stage_change` timeline event
when the patch carries a truthy stage strictly different (JS `!==`) from the
old record's stage — also when the id resolves to no candidate, in which case
`oldCandidate?.stage` is `undefined`.  Returns the post-update `get`. -/
def updateCandidate (k : Nat) (p : CandidatePatch) (now : Time) (db : DB) :
    Option Candidate × DB :=
  let oldCandidate := getCandidate k db
  let db1 := updateCandidateRow k p now db
  let db2 :=
    match p.stage with
    | some s =>
      if s ≠ "" ∧ some s ≠ oldCandidate.map (·.stage) then
        (createTimelineEvent
          { candidateId := some k
            type := some "stage_change"
            title := some ("Stage Changed to " ++ s)
            description := some ("Candidate moved from " ++ jsStr (oldCandidate.map (·.stage)) ++ " to " ++ s)
            metadata := { fromStage := oldCandidate.map (·.stage), toStage := some s } } db1).2
      else db1
    | none => db1
  (getCandidate k db2, db2)

/-- Embedding of `DatabaseService.deleteCandidate(id)`: four sequential awaited
deletes (candidate row, timeline events, notes, assessment responses) — and
nothing else; in particular the `jobApplications` table is not touched. -/
def deleteCandidate (k : Nat) (db : DB) : DB :=
  deleteResponsesByCandidate k (deleteNotesByCandidate k (deleteEventsByCandidate k (deleteCandidateRow k db)))

/-- Embedding of `DatabaseService.createJobApplication(applicationData)`: add
the factory-built application (no duplicate check), then append a
`job_application` timeline event. -/
def createJobApplication (d : Types.JobApplicationInput) (db : DB) : JobApplication × DB :=
  let application := Types.createJobApplication d
  let (stored, db1) := addApplicationRow application db
  let db2 := (createTimelineEvent
    { candidateId := d.candidateId
      type := some "job_application"
      title := some ("Applied for " ++ jsStr d.jobTitle)
      description := some ("Candidate applied for the " ++ jsStr d.jobTitle ++ " position")
      metadata := { jobId := d.jobId, applicationId := stored.id, status := d.status } } db1).2
  (stored, db2)

/-- Embedding of `DatabaseService.applyCandidateToJob(candidateId, jobId)`:
throw `NotFoundError` when the job id resolves to no job; otherwise throw
`DuplicateApplicationError` when an application for the pair already exists;
otherwise create an application with status "applied" (which also appends the
`job_application` timeline event). -/
def applyCandidateToJob (candidateId jobId : Nat) (db : DB) :
    Except JSError (JobApplication × DB) :=
  match getJob jobId db with
  | none => .error jobNotFoundError
  | some job =>
    match findApplicationPair candidateId jobId db with
    | some _ => .error duplicateApplicationError
    | none =>
      .ok (createJobApplication
        { candidateId := some candidateId
          jobId := some jobId
          jobTitle := some job.title
          status := some "applied" } db)

/-- Embedding of `DatabaseService.updateJobApplication(id, updates)`. -/
def updateJobApplication (k : Nat) (p : ApplicationPatch) (db : DB) :
    Option JobApplication × DB :=
  let db1 := updateApplicationRow k p db
  (getApplication k db1, db1)

/-- Embedding of `DatabaseService.updateJobApplicationStatus(applicationId,
newStatus, notes = '')`: throw `NotFoundError` when the id resolves to no
application; otherwise patch `status`, `notes` (falling back to the stored
notes when the argument is falsy) and — directly in the patch, since this
table has no `updating` hook — `updatedAt`, then append a `status_change`
timeline event. -/
def updateJobApplicationStatus (k : Nat) (newStatus notes : String) (now : Time)
    (db : DB) : Except JSError (Option JobApplication × DB) :=
  match getApplication k db with
  | none => .error applicationNotFoundError
  | some application =>
    let oldStatus := application.status
    let (_, db1) := updateJobApplication k
      { status := some newStatus
        notes := some (if notes ≠ "" then notes else application.notes)
        updatedAt := some now } db
    let db2 := (createTimelineEvent
      { candidateId := application.candidateId
        type := some "status_change"
        title := some ("Status changed to " ++ newStatus)
        description := some ("Application status changed from " ++ oldStatus ++ " to " ++ newStatus)
        metadata := { jobId := application.jobId, applicationId := some k,
                      oldStatus := some oldStatus, newStatus := some newStatus,
                      notes := some notes } } db1).2
    .ok (getApplication k db2, db2)

end DatabaseService

/-! ## Specification-side definitions

These render the vocabulary of the claims (regex pattern, uniqueness
invariant, event counting) as Lean predicates over the embedded state. -/

/-- Rendering of the claim's regex `^{base-slug}(-\d+)?$`. -/
def matchesSlugPattern (base s : String) : Prop :=
  s = base ∨ ∃ ds : List Char, ds ≠ [] ∧ (∀ c ∈ ds, c.isDigit) ∧ s = base ++ "-" ++ String.mk ds

/-- The spec invariant: at most one JobApplication per (candidateId, jobId)
pair. -/
def UniqueApplicationPairs (db : DB) : Prop :=
  db.jobApplications.Pairwise
    (fun a b => ¬ (a.candidateId = b.candidateId ∧ a.jobId = b.jobId))

instance : DecidablePred UniqueApplicationPairs := by
  unfold UniqueApplicationPairs
  infer_instance

/-- Number of `stage_change` timeline events referencing candidate `k`. -/
def stageChangeCount (k : Nat) (db : DB) : Nat :=
  (db.timelineEvents.filter
    (fun e => e.type = "stage_change" ∧ e.candidateId = some k)).length

/-- Number of JobApplication rows for the pair `(c, j)`. -/
def applicationPairCount (c j : Nat) (db : DB) : Nat :=
  (db.jobApplications.filter
    (fun a => a.candidateId = some c ∧ a.jobId = some j)).length

/-- Post-state of a service call that can throw: a thrown `Error` leaves the
store as it was. -/
def exceptDB {α : Type} (r : Except JSError (α × DB)) (db : DB) : DB :=
  match r with
  | .ok (_, db') => db'
  | .error _ => db

/-- A sequence of `createJob` calls sharing one title, with no caller-supplied
slug or id (the scenario of the slug claims); returns the created jobs in call
order together with the final store. -/
def createJobSeq (t : String) : Nat → DB → List Job × DB
  | 0, db => ([], db)
  | n + 1, db =>
    let (j, db1) := DatabaseService.createJob { title := some t } 0 db
    let (rest, db2) := createJobSeq t n db1
    (j :: rest, db2)

/-- A sequence of `updateCandidate` calls against candidate `k`, each given as
the patch and the wall-clock time of the call. -/
def runCandidateUpdates (k : Nat) : List (CandidatePatch × Time) → DB → DB
  | [], db => db
  | (p, t) :: rest, db => runCandidateUpdates k rest (DatabaseService.updateCandidate k p t db).2

/-- The claim's count of stage-changing updates: those whose patch carries a
stage different from the candidate's stage at the time of the call (`cur`
tracks that stage through the sequence). -/
def countStageChanging (cur : String) : List (CandidatePatch × Time) → Nat
  | [] => 0
  | (p, _) :: rest =>
    match p.stage with
    | some s => (if s ≠ cur then 1 else 0) + countStageChanging s rest
    | none => countStageChanging cur rest

/-! ## General list lemmas -/

lemma filter_filter_of_excl {α : Type} (p q : α → Bool) (h : ∀ x, q x = true → p x = false) :
    ∀ l : List α, (l.filter p).filter q = [] := by
  intro l
  induction l with
  | nil => rfl
  | cons a t ih =>
    cases hpa : p a with
    | false => simpa [List.filter_cons, hpa] using ih
    | true =>
      have hqa : q a = false := by
        cases hqa : q a with
        | false => rfl
        | true => exact absurd (h a hqa) (by simp [hpa])
      simpa [List.filter_cons, hpa, hqa] using ih

lemma find?_map_ite {α : Type} (q : α → Prop) [DecidablePred q] (g : α → α)
    (hg : ∀ x, q x → q (g x)) :
    ∀ l : List α,
      (l.map (fun x => if q x then g x else x)).find? (fun x => decide (q x)) =
        (l.find? (fun x => decide (q x))).map g := by
  intro l
  induction l with
  | nil => rfl
  | cons a t ih =>
    by_cases hqa : q a
    · rw [List.map_cons, if_pos hqa, List.find?_cons_of_pos _ (by simpa using hg a hqa),
        List.find?_cons_of_pos _ (by simpa using hqa), Option.map_some']
    · rw [List.map_cons, if_neg hqa, List.find?_cons_of_neg _ (by simpa using hqa),
        List.find?_cons_of_neg _ (by simpa using hqa), ih]

lemma map_ite_id_of_none {α : Type} (q : α → Prop) [DecidablePred q] (g : α → α) {l : List α}
    (h : l.find? (fun x => decide (q x)) = none) :
    l.map (fun x => if q x then g x else x) = l := by
  have h' := List.find?_eq_none.mp h
  calc l.map (fun x => if q x then g x else x) = l.map id := by
        refine List.map_congr_left (fun a ha => ?_)
        have : ¬ q a := by simpa using h' a ha
        simp [this]
    _ = l := List.map_id l

/-! ## Claim C1: deleteJob cascade atomicity -/

/-- A store holding one job (id 1) together with a candidate and an assessment
referencing it. -/
def c1DB : DB :=
  { jobs := [{ id := some 1, title := "Backend Engineer", slug := "backend-engineer" }]
    candidates := [{ id := some 1, jobId := some 1 }]
    assessments := [{ id := some 1, jobId := some 1 }]
    nextJobId := 2, nextCandidateId := 2, nextAssessmentId := 2 }

/-- Claim C1: the claim says `deleteJob` runs as a single atomic transaction so
that a state with the job deleted but its candidates or assessments remaining
is never observable.  In the source the three deletes are three independent
awaited calls with no enclosing transaction, so the state after the first
awaited call — job gone, dependent candidate and assessment still present — is
an element of the observable state trace; if the cascade is interrupted there,
that state persists. -/
theorem c1_midstate_orphan :
    DatabaseService.deleteJobStep1 1 c1DB ∈ DatabaseService.deleteJobTrace 1 c1DB ∧
    getJob 1 (DatabaseService.deleteJobStep1 1 c1DB) = none ∧
    ((DatabaseService.deleteJobStep1 1 c1DB).candidates.filter
      (fun c => c.jobId = some 1)).length = 1 ∧
    ((DatabaseService.deleteJobStep1 1 c1DB).assessments.filter
      (fun a => a.jobId = some 1)).length = 1 := by
  decide

/-! ## Claim C2: deleteCandidate cascade -/

/-- A store holding candidate 1 together with a job application referencing it. -/
def c2DB : DB :=
  { candidates := [{ id := some 1 }]
    jobApplications := [{ id := some 1, candidateId := some 1, jobId := some 1 }]
    nextCandidateId := 2, nextApplicationId := 2 }

/-- Claim C2 counterexample: after a successful `deleteCandidate(1)` the
candidate is gone, but the JobApplication row with `candidateId = 1` remains —
the source never touches the `jobApplications` table, so the claimed
"zero JobApplications" is false. -/
theorem c2_counterexample :
    getCandidate 1 (DatabaseService.deleteCandidate 1 c2DB) = none ∧
    ¬ (((DatabaseService.deleteCandidate 1 c2DB).jobApplications.filter
        (fun a => a.candidateId = some 1)).length = 0) := by
  decide

/-- Claim C2 (amended): after `deleteCandidate(id)` completes, zero
TimelineEvents, zero Notes and zero AssessmentResponses with that candidateId
remain; the `jobApplications` table is left entirely unchanged (its rows for
the candidate are not deleted). -/
theorem c2_amended (db : DB) (k : Nat) :
    ((DatabaseService.deleteCandidate k db).timelineEvents.filter
      (fun e => e.candidateId = some k)).length = 0 ∧
    ((DatabaseService.deleteCandidate k db).notes.filter
      (fun n => n.candidateId = some k)).length = 0 ∧
    ((DatabaseService.deleteCandidate k db).assessmentResponses.filter
      (fun r => r.candidateId = some k)).length = 0 ∧
    (DatabaseService.deleteCandidate k db).jobApplications = db.jobApplications := by
  have excl : ∀ (β : Type) (f : β → Option Nat),
      ∀ x : β, (decide (f x = some k)) = true → (decide (¬ f x = some k)) = false := by
    intro β f x hx
    simp only [decide_eq_true_eq] at hx
    simp [hx]
  refine ⟨?_, ?_, ?_, rfl⟩
  · have := filter_filter_of_excl (fun e : TimelineEvent => decide (¬ e.candidateId = some k))
      (fun e : TimelineEvent => decide (e.candidateId = some k))
      (excl TimelineEvent (fun e => e.candidateId)) db.timelineEvents
    simp [DatabaseService.deleteCandidate, deleteResponsesByCandidate,
      deleteNotesByCandidate, deleteEventsByCandidate, deleteCandidateRow, this]
  · have := filter_filter_of_excl (fun n : Note => decide (¬ n.candidateId = some k))
      (fun n : Note => decide (n.candidateId = some k))
      (excl Note (fun n => n.candidateId)) db.notes
    simp [DatabaseService.deleteCandidate, deleteResponsesByCandidate,
      deleteNotesByCandidate, deleteEventsByCandidate, deleteCandidateRow, this]
  · have := filter_filter_of_excl (fun r : AssessmentResponse => decide (¬ r.candidateId = some k))
      (fun r : AssessmentResponse => decide (r.candidateId = some k))
      (excl AssessmentResponse (fun r => r.candidateId)) db.assessmentResponses
    simp [DatabaseService.deleteCandidate, deleteResponsesByCandidate,
      deleteNotesByCandidate, deleteEventsByCandidate, deleteCandidateRow, this]

/-! ## Claim C10: updateCandidate on a nonexistent id -/

/-- The `stage_change` timeline event built by `updateCandidate` when the
pre-update record is `old` and the new stage is `s`; `eid` is the engine key it
receives. -/
def stageChangeEventOf (k : Nat) (s : String) (old : Option Candidate) (eid : Nat) :
    TimelineEvent :=
  { id := some eid
    candidateId := some k
    type := "stage_change"
    title := "Stage Changed to " ++ s
    description := "Candidate moved from " ++ jsStr (old.map (·.stage)) ++ " to " ++ s
    metadata := { fromStage := old.map (·.stage), toStage := some s } }

/-- Claim C10: for an id resolving to no candidate, `updateCandidate` with a
(truthy) stage in the patch throws nothing and returns `undefined`, leaves the
candidates table unchanged, and still appends a `stage_change` timeline event
whose `candidateId` references the nonexistent candidate and whose
`metadata.fromStage` is `undefined`. -/
theorem c10_ghost_event (db : DB) (k : Nat) (p : CandidatePatch) (s : String) (now : Time)
    (h : getCandidate k db = none) (hps : p.stage = some s) (hs : s ≠ "") :
    (DatabaseService.updateCandidate k p now db).1 = none ∧
    (DatabaseService.updateCandidate k p now db).2.candidates = db.candidates ∧
    (DatabaseService.updateCandidate k p now db).2.timelineEvents =
      db.timelineEvents ++ [stageChangeEventOf k s none db.nextEventId] ∧
    (stageChangeEventOf k s none db.nextEventId).metadata.fromStage = none := by
  have hfind : db.candidates.find? (fun x => decide (x.id = some k)) = none := h
  have hrow : updateCandidateRow k p now db = db := by
    unfold updateCandidateRow
    rw [map_ite_id_of_none (fun x : Candidate => x.id = some k) _ hfind]
  simp only [DatabaseService.updateCandidate, h, hps, hrow, Option.map_none']
  rw [if_pos ⟨hs, by simp⟩]
  refine ⟨?_, rfl, ?_, rfl⟩
  · simpa [DatabaseService.createTimelineEvent, addEventRow, getCandidate] using hfind
  · simp [DatabaseService.createTimelineEvent, Types.createTimelineEvent, addEventRow,
      stageChangeEventOf, jsStr]

/-- Claim C10 witness: concrete run against the empty store. -/
theorem c10_ghost_event_witness :
    (DatabaseService.updateCandidate 7 { stage := some "screen" } 3 emptyDB).1 = none ∧
    (DatabaseService.updateCandidate 7 { stage := some "screen" } 3 emptyDB).2.candidates =
      emptyDB.candidates ∧
    (DatabaseService.updateCandidate 7 { stage := some "screen" } 3 emptyDB).2.timelineEvents =
      emptyDB.timelineEvents ++ [stageChangeEventOf 7 "screen" none emptyDB.nextEventId] ∧
    (stageChangeEventOf 7 "screen" none emptyDB.nextEventId).metadata.fromStage = none :=
  c10_ghost_event emptyDB 7 { stage := some "screen" } "screen" 3 (by decide) rfl (by decide)

/-! ## Claim C3: at most one JobApplication per (candidateId, jobId) -/

/-- Input for a direct `createJobApplication` call (the seed path uses this
service method directly). -/
def c3Input : Types.JobApplicationInput :=
  { candidateId := some 1, jobId := some 1, jobTitle := some "X", status := some "applied" }

/-- State after one direct `createJobApplication` call on the empty store. -/
def c3DB1 : DB := (DatabaseService.createJobApplication c3Input emptyDB).2

/-- State after a second identical `createJobApplication` call. -/
def c3DB2 : DB := (DatabaseService.createJobApplication c3Input c3DB1).2

/-- Claim C3 counterexample: starting from a state where the pair (1, 1) is
unique, a direct `createJobApplication` call with the same pair (as the seed
path performs) inserts a second row — the method has no uniqueness check, so
the invariant is not preserved by every inserting operation. -/
theorem c3_counterexample :
    UniqueApplicationPairs c3DB1 ∧
    ¬ UniqueApplicationPairs c3DB2 ∧
    applicationPairCount 1 1 c3DB2 = 2 := by
  decide

/-- Claim C3 (amended): `applyCandidateToJob` preserves the at-most-one
invariant — it refuses to insert when an application for the pair exists — but
`createJobApplication` called directly performs no check and can create a
duplicate row. -/
theorem c3_amended (db : DB) (c j : Nat) (h : UniqueApplicationPairs db) :
    UniqueApplicationPairs (exceptDB (DatabaseService.applyCandidateToJob c j db) db) := by
  rcases hj : getJob j db with _ | job
  · simpa [DatabaseService.applyCandidateToJob, hj, exceptDB] using h
  · rcases hp : findApplicationPair c j db with _ | a
    · have hnone := List.find?_eq_none.mp hp
      simp only [DatabaseService.applyCandidateToJob, hj, hp, exceptDB,
        DatabaseService.createJobApplication, addApplicationRow,
        DatabaseService.createTimelineEvent, addEventRow]
      unfold UniqueApplicationPairs at h ⊢
      rw [List.pairwise_append]
      refine ⟨h, List.pairwise_singleton _ _, ?_⟩
      intro x hx b hb
      have hb' : b.candidateId = some c ∧ b.jobId = some j := by
        have : b = { Types.createJobApplication
            { candidateId := some c, jobId := some j, jobTitle := some job.title,
              status := some "applied" } with id := some db.nextApplicationId } := by
          simpa using hb
        subst this
        exact ⟨rfl, rfl⟩
      have hx' : ¬ (x.candidateId = some c ∧ x.jobId = some j) := by
        simpa using hnone x hx
      intro hcontra
      exact hx' ⟨hb'.1 ▸ hcontra.1, hb'.2 ▸ hcontra.2⟩
    · simpa [DatabaseService.applyCandidateToJob, hj, hp, exceptDB] using h

/-- A store holding one job, for exercising the success path of
`applyCandidateToJob`. -/
def c3WitnessDB : DB :=
  { jobs := [{ id := some 1, title := "Backend Engineer", slug := "backend-engineer" }]
    nextJobId := 2 }

/-- Claim C3 witness: the amended preservation statement at a concrete store. -/
theorem c3_amended_witness :
    UniqueApplicationPairs
      (exceptDB (DatabaseService.applyCandidateToJob 1 1 c3WitnessDB) c3WitnessDB) :=
  c3_amended c3WitnessDB 1 1 (by decide)

/-! ## Claim C6: timestamps and the hook layer -/

/-- A job application row whose `updatedAt` is the time 0. -/
def c6Row : JobApplication :=
  { id := some 1, candidateId := some 1, jobId := some 1,
    status := "applied", updatedAt := some 0 }

/-- A store holding exactly the application `c6Row`. -/
def c6DB : DB := { jobApplications := [c6Row], nextApplicationId := 2 }

/-- Claim C6 counterexample: the claim says the hook layer is the only writer
of timestamp fields, yet the `jobApplications` table has no `updating` hook and
`updateJobApplicationStatus` still changes the row's `updatedAt` (it writes it
directly inside its update patch). -/
theorem c6_counterexample :
    hasUpdatingHook "jobApplications" = false ∧
    c6DB.jobApplications.map (·.updatedAt) = [some 0] ∧
    (exceptDB (DatabaseService.updateJobApplicationStatus 1 "screen" "" 5 c6DB)
      c6DB).jobApplications.map (·.updatedAt) = [some 5] := by
  decide

lemma all_updated {α : Type} (q : α → Prop) [DecidablePred q] (g : α → α) (r : α → Prop)
    [DecidablePred r] (hg : ∀ x, q x → r (g x)) (l : List α) :
    (l.map (fun x => if q x then g x else x)).all (fun x => decide (¬ q x ∨ r x)) = true := by
  rw [List.all_eq_true]
  intro x hx
  obtain ⟨y, hy, rfl⟩ := List.mem_map.mp hx
  by_cases hqy : q y
  · rw [if_pos hqy]
    exact decide_eq_true (.inr (hg y hqy))
  · rw [if_neg hqy]
    exact decide_eq_true (.inl hqy)

/-- Claim C6 (amended): the `creating`/`updating` hooks stamp
`createdAt`/`updatedAt` on every insert and update of the hooked tables (jobs
and candidates shown for the embedded operations), but they are not the only
writer of timestamps: the `jobApplications` table has no `updating` hook, and a
successful `updateJobApplicationStatus` nevertheless sets the patched row's
`updatedAt` to the current time by writing it directly in its update patch. -/
theorem c6_amended (k : Nat) (ns nts : String) (now : Time) (db : DB)
    (app : JobApplication) (h : getApplication k db = some app) :
    (hasUpdatingHook "jobApplications" = false ∧
      (exceptDB (DatabaseService.updateJobApplicationStatus k ns nts now db)
        db).jobApplications.all
          (fun x => decide (¬ x.id = some k ∨ x.updatedAt = some now)) = true) ∧
    (∀ (t : Time) (j : Job) (d : DB),
      (addJobRow t j d).1.createdAt = some t ∧ (addJobRow t j d).1.updatedAt = some t) ∧
    (∀ (t : Time) (c : Candidate) (d : DB),
      (addCandidateRow t c d).1.createdAt = some t ∧
        (addCandidateRow t c d).1.updatedAt = some t) ∧
    (∀ (i : Nat) (p : JobPatch) (t : Time) (d : DB),
      (updateJobRow i p t d).jobs.all
        (fun x => decide (¬ x.id = some i ∨ x.updatedAt = some t)) = true) ∧
    (∀ (i : Nat) (p : CandidatePatch) (t : Time) (d : DB),
      (updateCandidateRow i p t d).candidates.all
        (fun x => decide (¬ x.id = some i ∨ x.updatedAt = some t)) = true) := by
  refine ⟨⟨rfl, ?_⟩, fun t j d => ⟨rfl, rfl⟩, fun t c d => ⟨rfl, rfl⟩, ?_, ?_⟩
  · simp only [DatabaseService.updateJobApplicationStatus, h, exceptDB,
      DatabaseService.updateJobApplication, updateApplicationRow,
      DatabaseService.createTimelineEvent, addEventRow]
    exact all_updated (fun x : JobApplication => x.id = some k) _
      (fun x => x.updatedAt = some now) (fun x _ => rfl) db.jobApplications
  · intro i p t d
    exact all_updated (fun x : Job => x.id = some i) _
      (fun x => x.updatedAt = some t) (fun x _ => rfl) d.jobs
  · intro i p t d
    exact all_updated (fun x : Candidate => x.id = some i) _
      (fun x => x.updatedAt = some t) (fun x _ => rfl) d.candidates

/-- Claim C6 witness: the non-hook timestamp write at a concrete store. -/
theorem c6_amended_witness :
    (exceptDB (DatabaseService.updateJobApplicationStatus 1 "screen" "" 5 c6DB)
      c6DB).jobApplications.all
        (fun x => decide (¬ x.id = some 1 ∨ x.updatedAt = some 5)) = true :=
  (c6_amended 1 "screen" "" 5 c6DB c6Row (by decide)).1.2

/-! ## Claim C5: applyCandidateToJob contract -/

/-- The JobApplication row `applyCandidateToJob` inserts on success. -/
def applySuccessApp (c j : Nat) (job : Job) (db : DB) : JobApplication :=
  { id := some db.nextApplicationId, candidateId := some c, jobId := some j,
    jobTitle := job.title, status := "applied" }

/-- The `job_application` timeline event `applyCandidateToJob` appends on
success (via `createJobApplication`). -/
def applySuccessEvent (c j : Nat) (job : Job) (db : DB) : TimelineEvent :=
  { id := some db.nextEventId, candidateId := some c, type := "job_application",
    title := "Applied for " ++ job.title,
    description := "Candidate applied for the " ++ job.title ++ " position",
    metadata := { jobId := some j, applicationId := some db.nextApplicationId,
                  status := some "applied" } }

/-- Claim C5: `applyCandidateToJob` fails with the `NotFoundError`
(`'Job not found'`) when the job id resolves to no job; when the job exists and
an application for the pair already exists it fails with the
`DuplicateApplicationError` and the store — in particular the
`jobApplications` table — is untouched; otherwise it succeeds, inserting
exactly one JobApplication with status "applied" and appending exactly one
`job_application` timeline event for the candidate. -/
theorem c5_apply_contract (db : DB) (c j : Nat) :
    (getJob j db = none →
      DatabaseService.applyCandidateToJob c j db = .error jobNotFoundError) ∧
    ((getJob j db).isSome → (findApplicationPair c j db).isSome →
      DatabaseService.applyCandidateToJob c j db = .error duplicateApplicationError ∧
      exceptDB (DatabaseService.applyCandidateToJob c j db) db = db) ∧
    ((getJob j db).isSome → findApplicationPair c j db = none →
      DatabaseService.applyCandidateToJob c j db =
        .ok (applySuccessApp c j ((getJob j db).getD {}) db,
             exceptDB (DatabaseService.applyCandidateToJob c j db) db) ∧
      (exceptDB (DatabaseService.applyCandidateToJob c j db) db).jobApplications =
        db.jobApplications ++ [applySuccessApp c j ((getJob j db).getD {}) db] ∧
      (exceptDB (DatabaseService.applyCandidateToJob c j db) db).timelineEvents =
        db.timelineEvents ++ [applySuccessEvent c j ((getJob j db).getD {}) db] ∧
      (applySuccessApp c j ((getJob j db).getD {}) db).status = "applied" ∧
      (applySuccessEvent c j ((getJob j db).getD {}) db).type = "job_application" ∧
      (applySuccessEvent c j ((getJob j db).getD {}) db).candidateId = some c) := by
  refine ⟨?_, ?_, ?_⟩
  · intro hj
    simp [DatabaseService.applyCandidateToJob, hj]
  · intro hj hp
    rcases Option.isSome_iff_exists.mp hj with ⟨job, hjob⟩
    rcases Option.isSome_iff_exists.mp hp with ⟨a, ha⟩
    constructor
    · simp [DatabaseService.applyCandidateToJob, hjob, ha]
    · simp [DatabaseService.applyCandidateToJob, hjob, ha, exceptDB]
  · intro hj hp
    rcases Option.isSome_iff_exists.mp hj with ⟨job, hjob⟩
    refine ⟨?_, ?_, ?_, rfl, rfl, rfl⟩ <;>
      simp [DatabaseService.applyCandidateToJob, hjob, hp, exceptDB,
        DatabaseService.createJobApplication, addApplicationRow,
        DatabaseService.createTimelineEvent, addEventRow,
        Types.createJobApplication, Types.createTimelineEvent,
        applySuccessApp, applySuccessEvent, jsStr]

/-- A store with one job and no applications (success path input). -/
def c5DB : DB :=
  { jobs := [{ id := some 1, title := "Backend Engineer", slug := "backend-engineer" }]
    nextJobId := 2 }

/-- A store with one job and an existing application for the pair (1, 1)
(duplicate path input). -/
def c5DupDB : DB :=
  { jobs := [{ id := some 1, title := "Backend Engineer", slug := "backend-engineer" }]
    jobApplications := [{ id := some 1, candidateId := some 1, jobId := some 1 }]
    nextJobId := 2, nextApplicationId := 2 }

/-- Claim C5 witness: the three branches of the contract at concrete stores. -/
theorem c5_apply_contract_witness :
    (DatabaseService.applyCandidateToJob 1 1 emptyDB = .error jobNotFoundError) ∧
    (DatabaseService.applyCandidateToJob 1 1 c5DupDB = .error duplicateApplicationError) ∧
    (exceptDB (DatabaseService.applyCandidateToJob 1 1 c5DB) c5DB).jobApplications =
      c5DB.jobApplications ++ [applySuccessApp 1 1 ((getJob 1 c5DB).getD {}) c5DB] :=
  ⟨(c5_apply_contract emptyDB 1 1).1 (by decide),
   ((c5_apply_contract c5DupDB 1 1).2.1 (by decide) (by decide)).1,
   ((c5_apply_contract c5DB 1 1).2.2 (by decide) (by decide)).2.1⟩

/-! ## Claim C8: reorderJobs -/

/-- A store with two jobs of orders 0 and 1, both last updated at time 0. -/
def c8DB : DB :=
  { jobs := [{ id := some 1, title := "A", slug := "a", order := 0, updatedAt := some 0 },
             { id := some 2, title := "B", slug := "b", order := 1, updatedAt := some 0 }]
    nextJobId := 3 }

/-- Claim C8 counterexample: `reorderJobs(0, 1)` swaps the two `order` values,
but the jobs `updating` hook also re-stamps `updatedAt` on both rows, so the
claimed "every other field is unchanged" is false. -/
theorem c8_counterexample :
    c8DB.jobs.map (fun x => (x.order, x.updatedAt)) = [(0, some 0), (1, some 0)] ∧
    (DatabaseService.reorderJobs 0 1 7 c8DB).2.jobs.map (fun x => (x.order, x.updatedAt)) =
      [(1, some 7), (0, some 7)] ∧
    ¬ ((DatabaseService.reorderJobs 0 1 7 c8DB).2.jobs.map (·.updatedAt) =
        c8DB.jobs.map (·.updatedAt)) := by
  decide

/-- Claim C8 (amended): inside one transaction, when jobs holding both order
values exist, `reorderJobs` swaps their `order` values and re-stamps their
`updatedAt` (the jobs updating hook), leaving all their other fields and every
other job unchanged; when either order value matches no job, the store — in
particular the job table — is left byte-for-byte unchanged and no error is
raised. -/
theorem c8_amended (fromOrder toOrder : Int) (now : Time) (db : DB)
    (hids : (db.jobs.map (·.id)).Nodup)
    (hsome : ∀ x ∈ db.jobs, x.id ≠ none) :
    ((sortByOrder db.jobs).find? (·.order = fromOrder) = none ∨
        (sortByOrder db.jobs).find? (·.order = toOrder) = none →
      (DatabaseService.reorderJobs fromOrder toOrder now db).2 = db) ∧
    (((sortByOrder db.jobs).find? (·.order = fromOrder)).isSome →
      ((sortByOrder db.jobs).find? (·.order = toOrder)).isSome →
      fromOrder ≠ toOrder →
      (DatabaseService.reorderJobs fromOrder toOrder now db).2.jobs =
        db.jobs.map (fun x =>
          if x.id = (((sortByOrder db.jobs).find? (·.order = fromOrder)).getD {}).id then
            applyJobPatch { order := some toOrder } now x
          else if x.id = (((sortByOrder db.jobs).find? (·.order = toOrder)).getD {}).id then
            applyJobPatch { order := some fromOrder } now x
          else x)) := by
  constructor
  · intro hnone
    rcases hfa : (sortByOrder db.jobs).find? (·.order = fromOrder) with _ | a
    · simp [DatabaseService.reorderJobs, hfa]
    · rcases hfb : (sortByOrder db.jobs).find? (·.order = toOrder) with _ | b
      · simp [DatabaseService.reorderJobs, hfa, hfb]
      · rcases hnone with hfa' | hfb'
        · exact absurd (hfa ▸ hfa') (by simp)
        · exact absurd (hfb ▸ hfb') (by simp)
  · intro hfa hfb hne
    rcases Option.isSome_iff_exists.mp hfa with ⟨a, ha⟩
    rcases Option.isSome_iff_exists.mp hfb with ⟨b, hb⟩
    have hamem : a ∈ db.jobs := by
      have h1 := List.mem_of_find?_eq_some ha
      rw [sortByOrder] at h1
      exact (List.perm_insertionSort _ _).mem_iff.mp h1
    have hbmem : b ∈ db.jobs := by
      have h1 := List.mem_of_find?_eq_some hb
      rw [sortByOrder] at h1
      exact (List.perm_insertionSort _ _).mem_iff.mp h1
    have hao : a.order = fromOrder := by simpa using List.find?_some ha
    have hbo : b.order = toOrder := by simpa using List.find?_some hb
    have hab : a ≠ b := fun h => hne (by rw [← hao, h, hbo])
    have hid_ab : a.id ≠ b.id := fun h => hab (List.inj_on_of_nodup_map hids hamem hbmem h)
    obtain ⟨ka, hka⟩ := Option.ne_none_iff_exists'.mp (hsome a hamem)
    obtain ⟨kb, hkb⟩ := Option.ne_none_iff_exists'.mp (hsome b hbmem)
    have hkab : ¬ (some ka = some kb) := by
      rw [← hka, ← hkb]; exact hid_ab
    simp only [DatabaseService.reorderJobs, ha, hb, Option.getD_some, updateJobRow,
      List.map_map, hka, hkb]
    refine List.map_congr_left (fun x hx => ?_)
    by_cases h1 : x.id = some ka
    · simp [Function.comp, h1, applyJobPatch, hkab]
    · have hk2 : ¬ kb = ka := fun h => hkab (by rw [h])
      by_cases h2 : x.id = some kb
      · simp [Function.comp, h1, h2, hk2, applyJobPatch]
      · simp [Function.comp, h1, h2]

/-- Claim C8 witness: swap and no-op at concrete stores. -/
theorem c8_amended_witness :
    (DatabaseService.reorderJobs 5 9 7 c8DB).2 = c8DB ∧
    (DatabaseService.reorderJobs 0 1 7 c8DB).2.jobs =
      c8DB.jobs.map (fun x =>
        if x.id = (((sortByOrder c8DB.jobs).find? (·.order = 0)).getD {}).id then
          applyJobPatch { order := some 1 } 7 x
        else if x.id = (((sortByOrder c8DB.jobs).find? (·.order = 1)).getD {}).id then
          applyJobPatch { order := some 0 } 7 x
        else x) :=
  ⟨(c8_amended 5 9 7 c8DB (by decide) (by decide)).1 (by decide),
   (c8_amended 0 1 7 c8DB (by decide) (by decide)).2 (by decide) (by decide) (by decide)⟩

/-! ## Claim C9: stage_change timeline events -/

/-- The initial `stage_change` event appended by `createCandidate`. -/
def submissionEventOf (k : Nat) (stage : String) (eid : Nat) : TimelineEvent :=
  { id := some eid, candidateId := some k, type := "stage_change",
    title := "Application Submitted",
    description := "Candidate applied for the position",
    metadata := { stage := some stage } }

lemma getCandidate_updateCandidateRow (k : Nat) (p : CandidatePatch) (now : Time) (db : DB) :
    getCandidate k (updateCandidateRow k p now db) =
      (getCandidate k db).map (applyCandidatePatch p now) := by
  unfold getCandidate updateCandidateRow
  exact find?_map_ite (fun x : Candidate => x.id = some k) _
    (fun x hx => by simpa [applyCandidatePatch] using hx) db.candidates

lemma stageChangeCount_createTimelineEvent (k : Nat) (db : DB)
    (inp : Types.TimelineEventInput)
    (hty : inp.type = some "stage_change") (hcand : inp.candidateId = some k) :
    stageChangeCount k (DatabaseService.createTimelineEvent inp db).2 =
      stageChangeCount k db + 1 := by
  unfold stageChangeCount DatabaseService.createTimelineEvent addEventRow
    Types.createTimelineEvent
  simp [List.filter_append, hty, hcand]

lemma updateCandidate_effects (k : Nat) (p : CandidatePatch) (now : Time) (db : DB)
    (c : Candidate) (hc : getCandidate k db = some c) :
    getCandidate k (DatabaseService.updateCandidate k p now db).2 =
      some (applyCandidatePatch p now c) ∧
    stageChangeCount k (DatabaseService.updateCandidate k p now db).2 =
      stageChangeCount k db +
        (match p.stage with
         | some s => if s ≠ "" ∧ s ≠ c.stage then 1 else 0
         | none => 0) := by
  have hrow := getCandidate_updateCandidateRow k p now db
  rw [hc] at hrow
  have hevents : (updateCandidateRow k p now db).timelineEvents = db.timelineEvents := rfl
  have hcount : stageChangeCount k (updateCandidateRow k p now db) = stageChangeCount k db := by
    unfold stageChangeCount
    rw [hevents]
  rcases hps : p.stage with _ | s
  · constructor
    · simp only [DatabaseService.updateCandidate, hc, hps, hrow, Option.map_some']
    · simp only [DatabaseService.updateCandidate, hc, hps, hcount, Nat.add_zero]
  · by_cases hcond : s ≠ "" ∧ s ≠ c.stage
    · have hcond' : s ≠ "" ∧ ¬ some s = some c.stage := by
        exact ⟨hcond.1, by simpa using hcond.2⟩
      constructor
      · simp only [DatabaseService.updateCandidate, hc, hps, Option.map_some']
        rw [if_pos hcond']
        simpa [DatabaseService.createTimelineEvent, addEventRow, getCandidate] using hrow
      · simp only [DatabaseService.updateCandidate, hc, hps, Option.map_some']
        rw [if_pos hcond', if_pos hcond]
        rw [stageChangeCount_createTimelineEvent k (updateCandidateRow k p now db) _ rfl rfl,
          hcount]
    · have hcond' : ¬ (s ≠ "" ∧ ¬ some s = some c.stage) := by
        simpa using hcond
      constructor
      · simp only [DatabaseService.updateCandidate, hc, hps, Option.map_some']
        rw [if_neg hcond']
        exact hrow
      · simp only [DatabaseService.updateCandidate, hc, hps, Option.map_some']
        rw [if_neg hcond', if_neg hcond]
        simpa using hcount

lemma runCandidateUpdates_count (k : Nat) :
    ∀ (updates : List (CandidatePatch × Time)) (db : DB) (c : Candidate),
      getCandidate k db = some c →
      (∀ pt ∈ updates, pt.1.stage ≠ some "") →
      stageChangeCount k (runCandidateUpdates k updates db) =
        stageChangeCount k db + countStageChanging c.stage updates := by
  intro updates
  induction updates with
  | nil => intro db c _ _; simp [runCandidateUpdates, countStageChanging]
  | cons pt rest ih =>
    intro db c hc hst
    obtain ⟨p, t⟩ := pt
    have heff := updateCandidate_effects k p t db c hc
    have hstp : p.stage ≠ some "" := hst (p, t) (List.mem_cons_self _ _)
    rw [runCandidateUpdates, ih _ (applyCandidatePatch p t c) heff.1
      (fun q hq => hst q (List.mem_cons_of_mem _ hq)), heff.2]
    rcases hps : p.stage with _ | s
    · simp [countStageChanging, hps, applyCandidatePatch]
    · have hs : s ≠ "" := by
        intro h
        exact hstp (by rw [hps, h])
      by_cases hsc : s ≠ c.stage
      · simp [countStageChanging, hps, applyCandidatePatch, hs, hsc]
        omega
      · simp only [ne_eq, Decidable.not_not] at hsc
        simp [countStageChanging, hps, applyCandidatePatch, hsc]

lemma createCandidate_fresh (d : Types.CandidateInput) (now : Time) (db : DB)
    (hid : d.id = none)
    (hfreshRow : ∀ x ∈ db.candidates, ¬ x.id = some db.nextCandidateId) :
    getCandidate db.nextCandidateId (DatabaseService.createCandidate d now db).2 =
      some (DatabaseService.createCandidate d now db).1 ∧
    (DatabaseService.createCandidate d now db).1.stage = d.stage.getD "applied" ∧
    stageChangeCount db.nextCandidateId (DatabaseService.createCandidate d now db).2 =
      stageChangeCount db.nextCandidateId db + 1 ∧
    (DatabaseService.createCandidate d now db).2.timelineEvents =
      db.timelineEvents ++
        [submissionEventOf db.nextCandidateId (d.stage.getD "applied") db.nextEventId] := by
  have hfind : db.candidates.find? (fun x => decide (x.id = some db.nextCandidateId)) = none :=
    List.find?_eq_none.mpr (fun x hx => by simpa using hfreshRow x hx)
  simp only [DatabaseService.createCandidate, Types.createCandidate, hid, addCandidateRow,
    DatabaseService.createTimelineEvent, addEventRow, Types.createTimelineEvent,
    submissionEventOf]
  refine ⟨?_, ?_, ?_, ?_⟩
  · unfold getCandidate
    rw [List.find?_append, hfind, Option.none_or]
    rw [List.find?_cons_of_pos _ (by simp)]
  · simp
  · unfold stageChangeCount
    simp [List.filter_append]
  · simp

/-- Claim C9: for a freshly created candidate followed by a sequence of
`updateCandidate` calls, the number of `stage_change` timeline events for the
candidate equals 1 (the "Application Submitted" event from `createCandidate`,
appended with the candidate's initial stage) plus the number of updates whose
(truthy) patch stage differed from the candidate's stage at the time of the
call; moreover each stage-changing update appends exactly one event whose
metadata carries `fromStage`/`toStage` read from the pre-update record. -/
theorem c9_stage_events (db : DB) (d : Types.CandidateInput) (now : Time)
    (updates : List (CandidatePatch × Time))
    (hid : d.id = none)
    (hfreshRow : ∀ x ∈ db.candidates, ¬ x.id = some db.nextCandidateId)
    (hfreshEv : stageChangeCount db.nextCandidateId db = 0)
    (hst : ∀ pt ∈ updates, pt.1.stage ≠ some "") :
    stageChangeCount db.nextCandidateId
        (runCandidateUpdates db.nextCandidateId updates
          (DatabaseService.createCandidate d now db).2) =
      1 + countStageChanging (DatabaseService.createCandidate d now db).1.stage updates ∧
    (DatabaseService.createCandidate d now db).2.timelineEvents =
      db.timelineEvents ++
        [submissionEventOf db.nextCandidateId (d.stage.getD "applied") db.nextEventId] ∧
    (∀ (k : Nat) (p : CandidatePatch) (t : Time) (db' : DB) (c : Candidate) (s : String),
      getCandidate k db' = some c → p.stage = some s → s ≠ "" → s ≠ c.stage →
      (DatabaseService.updateCandidate k p t db').2.timelineEvents =
        db'.timelineEvents ++ [stageChangeEventOf k s (some c) db'.nextEventId]) := by
  obtain ⟨hget, hstage, hcount, hevents⟩ := createCandidate_fresh d now db hid hfreshRow
  refine ⟨?_, hevents, ?_⟩
  · rw [runCandidateUpdates_count db.nextCandidateId updates _ _ hget hst, hcount, hfreshEv]
  · intro k p t db' c s hc hps hs hsc
    simp only [DatabaseService.updateCandidate, hc, hps, Option.map_some']
    rw [if_pos ⟨hs, by simpa using hsc⟩]
    simp [DatabaseService.createTimelineEvent, addEventRow, Types.createTimelineEvent,
      stageChangeEventOf, jsStr, updateCandidateRow]

/-- The update sequence used by the C9 witness: one real stage change, one
repeat of the same stage, one stage-free patch. -/
def c9Updates : List (CandidatePatch × Time) :=
  [({ stage := some "screen" }, 2), ({ stage := some "screen" }, 3), ({ name := some "B" }, 4)]

/-- Claim C9 witness: the count formula at a concrete creation and update
sequence. -/
theorem c9_stage_events_witness :
    stageChangeCount emptyDB.nextCandidateId
        (runCandidateUpdates emptyDB.nextCandidateId c9Updates
          (DatabaseService.createCandidate { name := some "A" } 1 emptyDB).2) =
      1 + countStageChanging
            (DatabaseService.createCandidate { name := some "A" } 1 emptyDB).1.stage
            c9Updates :=
  (c9_stage_events emptyDB { name := some "A" } 1 c9Updates rfl (by decide) (by decide)
    (by decide)).1

/-! ## Claim C7: getJobs ordering and pagination -/

instance : IsTotal Job (fun a b : Job => a.order ≤ b.order) :=
  ⟨fun a b => le_total a.order b.order⟩

instance : IsTrans Job (fun a b : Job => a.order ≤ b.order) :=
  ⟨fun _ _ _ h1 h2 => le_trans h1 h2⟩

lemma sorted_sortByOrder (l : List Job) :
    (sortByOrder l).Sorted (fun a b => a.order ≤ b.order) := by
  unfold sortByOrder
  exact List.sorted_insertionSort _ l

lemma sorted_jobsQuery (f : DatabaseService.JobFilters) (db : DB) :
    (DatabaseService.jobsQuery f db).Sorted (fun a b => a.order ≤ b.order) := by
  have hbase := sorted_sortByOrder db.jobs
  unfold DatabaseService.jobsQuery
  split <;> (try split) <;> (try split) <;> (try split) <;> (try split) <;>
    first
      | exact hbase
      | exact List.Sorted.filter _ hbase
      | exact List.Sorted.filter _ (List.Sorted.filter _ hbase)
      | exact List.Sorted.filter _ (List.Sorted.filter _ (List.Sorted.filter _ hbase))

/-- Claim C7: `getJobs` returns the query result ordered by the `order` field
ascending regardless of the status/tags/search filters; without (truthy) page
and pageSize options it returns the plain full array; with them it returns the
`{ data, pagination }` object whose `total` is the filtered count, whose
`data` is the corresponding slice, whose `hasMore` is
`(page-1)*pageSize + pageSize < total`, and whose `totalPages` is exactly
`Math.ceil(total / pageSize)` (the final two bounds pin the computed value as
the ceiling of the division). -/
theorem c7_listJobs_contract (f : DatabaseService.JobFilters) (db : DB) :
    (DatabaseService.jobsQuery f db).Sorted (fun a b => a.order ≤ b.order) ∧
    (numTruthy f.page = false ∨ numTruthy f.pageSize = false →
      DatabaseService.getJobs f db = .all (DatabaseService.jobsQuery f db)) ∧
    (numTruthy f.page = true → numTruthy f.pageSize = true →
      DatabaseService.getJobs f db =
        .paged (((DatabaseService.jobsQuery f db).drop
                  ((f.page.getD 0 - 1) * f.pageSize.getD 0)).take (f.pageSize.getD 0))
          { page := f.page.getD 0
            pageSize := f.pageSize.getD 0
            total := (DatabaseService.jobsQuery f db).length
            totalPages := ((DatabaseService.jobsQuery f db).length + f.pageSize.getD 0 - 1) /
              f.pageSize.getD 0
            hasMore := decide ((f.page.getD 0 - 1) * f.pageSize.getD 0 + f.pageSize.getD 0 <
              (DatabaseService.jobsQuery f db).length) } ∧
      (DatabaseService.jobsQuery f db).length ≤
        (((DatabaseService.jobsQuery f db).length + f.pageSize.getD 0 - 1) /
          f.pageSize.getD 0) * f.pageSize.getD 0 ∧
      (((DatabaseService.jobsQuery f db).length + f.pageSize.getD 0 - 1) /
          f.pageSize.getD 0) * f.pageSize.getD 0 <
        (DatabaseService.jobsQuery f db).length + f.pageSize.getD 0) := by
  refine ⟨sorted_jobsQuery f db, ?_, ?_⟩
  · intro h
    rcases hp : f.page with _ | p
    · simp [DatabaseService.getJobs, hp]
    · rcases hps : f.pageSize with _ | ps
      · simp [DatabaseService.getJobs, hp, hps]
      · have hz : ¬ (p ≠ 0 ∧ ps ≠ 0) := by
          rcases h with h | h
          · rw [hp] at h
            simp only [numTruthy, ne_eq, decide_eq_false_iff_not, Decidable.not_not] at h
            simp [h]
          · rw [hps] at h
            simp only [numTruthy, ne_eq, decide_eq_false_iff_not, Decidable.not_not] at h
            simp [h]
        simp [DatabaseService.getJobs, hp, hps, hz]
  · intro hp1 hp2
    rcases hp : f.page with _ | p
    · rw [hp] at hp1; simp [numTruthy] at hp1
    · rcases hps : f.pageSize with _ | ps
      · rw [hps] at hp2; simp [numTruthy] at hp2
      · rw [hp] at hp1
        rw [hps] at hp2
        simp only [numTruthy, ne_eq, decide_eq_true_eq] at hp1 hp2
        have hcond : p ≠ 0 ∧ ps ≠ 0 := ⟨hp1, hp2⟩
        refine ⟨?_, ?_, ?_⟩
        · simp [DatabaseService.getJobs, hp, hps, hcond]
        · have hps0 : 0 < ps := Nat.pos_of_ne_zero hp2
          have hdm := Nat.div_add_mod ((DatabaseService.jobsQuery f db).length + ps - 1) ps
          have hr := Nat.mod_lt ((DatabaseService.jobsQuery f db).length + ps - 1) hps0
          rw [Option.getD_some, Nat.mul_comm]
          generalize hM : ps * (((DatabaseService.jobsQuery f db).length + ps - 1) / ps) = M at hdm
          omega
        · have hps0 : 0 < ps := Nat.pos_of_ne_zero hp2
          have hdm := Nat.div_add_mod ((DatabaseService.jobsQuery f db).length + ps - 1) ps
          have hr := Nat.mod_lt ((DatabaseService.jobsQuery f db).length + ps - 1) hps0
          rw [Option.getD_some, Nat.mul_comm]
          generalize hM : ps * (((DatabaseService.jobsQuery f db).length + ps - 1) / ps) = M at hdm
          omega

/-- A store with three jobs whose `order` fields arrive unsorted. -/
def c7DB : DB :=
  { jobs := [{ id := some 1, title := "A", slug := "a", order := 2 },
             { id := some 2, title := "B", slug := "b", order := 0 },
             { id := some 3, title := "C", slug := "c", order := 1 }]
    nextJobId := 4 }

/-- Pagination options for the C7 witness. -/
def c7Filters : DatabaseService.JobFilters := { page := some 2, pageSize := some 2 }

/-- Claim C7 witness: unpaginated and paginated calls at a concrete store. -/
theorem c7_listJobs_contract_witness :
    DatabaseService.getJobs {} c7DB = .all (DatabaseService.jobsQuery {} c7DB) ∧
    (DatabaseService.getJobs c7Filters c7DB =
        .paged (((DatabaseService.jobsQuery c7Filters c7DB).drop
                  ((c7Filters.page.getD 0 - 1) * c7Filters.pageSize.getD 0)).take
                  (c7Filters.pageSize.getD 0))
          { page := c7Filters.page.getD 0
            pageSize := c7Filters.pageSize.getD 0
            total := (DatabaseService.jobsQuery c7Filters c7DB).length
            totalPages := ((DatabaseService.jobsQuery c7Filters c7DB).length +
              c7Filters.pageSize.getD 0 - 1) / c7Filters.pageSize.getD 0
            hasMore := decide ((c7Filters.page.getD 0 - 1) * c7Filters.pageSize.getD 0 +
              c7Filters.pageSize.getD 0 < (DatabaseService.jobsQuery c7Filters c7DB).length) } ∧
      (DatabaseService.jobsQuery c7Filters c7DB).length ≤
        (((DatabaseService.jobsQuery c7Filters c7DB).length + c7Filters.pageSize.getD 0 - 1) /
          c7Filters.pageSize.getD 0) * c7Filters.pageSize.getD 0 ∧
      (((DatabaseService.jobsQuery c7Filters c7DB).length + c7Filters.pageSize.getD 0 - 1) /
          c7Filters.pageSize.getD 0) * c7Filters.pageSize.getD 0 <
        (DatabaseService.jobsQuery c7Filters c7DB).length + c7Filters.pageSize.getD 0) :=
  ⟨(c7_listJobs_contract {} c7DB).2.1 (by decide),
   (c7_listJobs_contract c7Filters c7DB).2.2 (by decide) (by decide)⟩

/-! ## Claim C4: slug derivation and uniqueness -/

lemma decDigitChar_isDigit (d : Nat) (hd : d < 10) : (decDigitChar d).isDigit = true := by
  interval_cases d <;> decide

lemma decCharVal_decDigitChar (d : Nat) (hd : d < 10) : decCharVal (decDigitChar d) = d := by
  interval_cases d <;> decide

lemma natDecAux_eval : ∀ fuel n : Nat, n ≤ fuel → decValRev (natDecAux fuel n) = n := by
  intro fuel
  induction fuel with
  | zero =>
    intro n hn
    interval_cases n
    simp [natDecAux, decValRev]
  | succ f ih =>
    intro n hn
    by_cases h0 : n = 0
    · subst h0
      simp [natDecAux, decValRev]
    · rw [natDecAux, if_neg h0, decValRev,
        decCharVal_decDigitChar _ (Nat.mod_lt _ (by norm_num)),
        ih (n / 10) (by
          have h1 : n / 10 < n := Nat.div_lt_self (Nat.pos_of_ne_zero h0) (by norm_num)
          omega)]
      exact Nat.mod_add_div n 10

lemma natDecimal_parse (n : Nat) : decValRev (natDecimal n).data.reverse = n := by
  by_cases h0 : n = 0
  · subst h0
    decide
  · rw [natDecimal, if_neg h0]
    rw [show (String.mk (natDecAux n n).reverse).data = (natDecAux n n).reverse from rfl]
    rw [List.reverse_reverse]
    exact natDecAux_eval n n le_rfl

lemma natDecimal_inj : Function.Injective natDecimal := by
  intro m n h
  have h2 := congrArg (fun s : String => decValRev s.data.reverse) h
  simpa [natDecimal_parse] using h2

lemma natDecAux_digits : ∀ fuel n : Nat, ∀ c ∈ natDecAux fuel n, c.isDigit = true := by
  intro fuel
  induction fuel with
  | zero => intro n c hc; simp [natDecAux] at hc
  | succ f ih =>
    intro n c hc
    rw [natDecAux] at hc
    by_cases h0 : n = 0
    · simp [h0] at hc
    · rw [if_neg h0] at hc
      rcases List.mem_cons.mp hc with h | h
      · exact h ▸ decDigitChar_isDigit _ (Nat.mod_lt _ (by norm_num))
      · exact ih _ c h

lemma natDecimal_digits (k : Nat) :
    (natDecimal k).data ≠ [] ∧ ∀ c ∈ (natDecimal k).data, c.isDigit = true := by
  by_cases h0 : k = 0
  · subst h0
    refine ⟨by decide, by decide⟩
  · rw [natDecimal, if_neg h0]
    rw [show (String.mk (natDecAux k k).reverse).data = (natDecAux k k).reverse from rfl]
    constructor
    · rcases k with _ | m
      · exact absurd rfl h0
      · simp [natDecAux, List.reverse_eq_nil_iff]
    · intro c hc
      exact natDecAux_digits k k c (List.mem_reverse.mp hc)

lemma string_append_cancel (base x y : String)
    (h : base ++ "-" ++ x = base ++ "-" ++ y) : x = y := by
  have h2 := congrArg String.data h
  rw [String.data_append, String.data_append] at h2
  have h3 := List.append_cancel_left h2
  cases x
  cases y
  exact congrArg String.mk (by simpa using h3)

lemma probe_ne_base (base x : String) : ¬ (base ++ "-" ++ x = base) := by
  intro h
  have h2 := congrArg String.length h
  rw [String.length_append, String.length_append] at h2
  have h3 : ("-" : String).length = 1 := rfl
  omega

lemma probe_inj (base : String) :
    Function.Injective (fun k : Nat => base ++ "-" ++ natDecimal k) := by
  intro i j h
  exact natDecimal_inj (string_append_cancel _ _ _ h)

/-- The sequence of slug candidates the probing loop checks, starting from the
current slug `cur` with next counter value `counter`. -/
def slugProbe (base cur : String) (counter : Nat) : Nat → String
  | 0 => cur
  | i + 1 => base ++ "-" ++ natDecimal (counter + i)

lemma slugProbe_shift (base cur : String) (counter : Nat) (i : Nat) :
    slugProbe base (base ++ "-" ++ natDecimal counter) (counter + 1) i =
      slugProbe base cur counter (i + 1) := by
  cases i with
  | zero => simp [slugProbe]
  | succ j =>
    show base ++ "-" ++ natDecimal (counter + 1 + j) = base ++ "-" ++ natDecimal (counter + (j + 1))
    rw [show counter + 1 + j = counter + (j + 1) from by omega]

lemma slugLoop_shape (db : DB) (base : String) :
    ∀ (fuel counter : Nat) (cur : String),
      DatabaseService.slugLoop db base fuel counter cur = cur ∨
        ∃ k, DatabaseService.slugLoop db base fuel counter cur = base ++ "-" ++ natDecimal k := by
  intro fuel
  induction fuel with
  | zero => intro counter cur; exact .inl rfl
  | succ f ih =>
    intro counter cur
    rw [DatabaseService.slugLoop]
    by_cases hc : DatabaseService.isSlugUnique cur none db = true
    · rw [if_pos hc]
      exact .inl rfl
    · rw [if_neg hc]
      rcases ih (counter + 1) (base ++ "-" ++ natDecimal counter) with h | ⟨k, hk⟩
      · exact .inr ⟨counter, h⟩
      · exact .inr ⟨k, hk⟩

lemma slugLoop_finds (db : DB) (base : String) :
    ∀ (fuel counter : Nat) (cur : String),
      (∃ i < fuel, DatabaseService.isSlugUnique (slugProbe base cur counter i) none db = true) →
      DatabaseService.isSlugUnique (DatabaseService.slugLoop db base fuel counter cur) none db
        = true := by
  intro fuel
  induction fuel with
  | zero =>
    intro counter cur ⟨i, hi, _⟩
    exact absurd hi (Nat.not_lt_zero i)
  | succ f ih =>
    intro counter cur ⟨i, hi, hu⟩
    rw [DatabaseService.slugLoop]
    by_cases hc : DatabaseService.isSlugUnique cur none db = true
    · rw [if_pos hc]; exact hc
    · rw [if_neg hc]
      rcases i with _ | i'
      · exact absurd hu hc
      · refine ih (counter + 1) (base ++ "-" ++ natDecimal counter) ⟨i', by omega, ?_⟩
        rw [slugProbe_shift base cur counter i']
        exact hu

lemma isSlugUnique_none_iff (db : DB) (s : String) :
    DatabaseService.isSlugUnique s none db = true ↔
      db.jobs.find? (·.slug = s) = none := by
  unfold DatabaseService.isSlugUnique
  rcases hf : db.jobs.find? (·.slug = s) with _ | j
  · simp [hf]
  · simp [hf]

lemma slugLoop_not_taken (db : DB) (base : String) :
    DatabaseService.isSlugUnique
      (DatabaseService.slugLoop db base (DatabaseService.slugFuel db) 1 base) none db = true := by
  apply slugLoop_finds
  by_contra hno
  push_neg at hno
  have htaken : ∀ i < db.jobs.length + 1,
      (base ++ "-" ++ natDecimal (1 + i)) ∈ db.jobs.map (·.slug) := by
    intro i hi
    have h1 := hno (i + 1) (by unfold DatabaseService.slugFuel; omega)
    have h2 : slugProbe base base 1 (i + 1) = base ++ "-" ++ natDecimal (1 + i) := rfl
    rw [h2] at h1
    rcases hf : db.jobs.find? (·.slug = base ++ "-" ++ natDecimal (1 + i)) with _ | j
    · exact absurd ((isSlugUnique_none_iff db _).mpr hf) h1
    · have hmem := List.mem_of_find?_eq_some hf
      have hslug : j.slug = base ++ "-" ++ natDecimal (1 + i) := by
        simpa using List.find?_some hf
      exact hslug ▸ List.mem_map_of_mem _ hmem
  have hnodup : ((List.range (db.jobs.length + 1)).map
      (fun i => base ++ "-" ++ natDecimal (1 + i))).Nodup := by
    refine List.Nodup.map ?_ (List.nodup_range _)
    intro i j h
    have := probe_inj base h
    omega
  have hsub : ((List.range (db.jobs.length + 1)).map
        (fun i => base ++ "-" ++ natDecimal (1 + i))).toFinset ⊆
      (db.jobs.map (·.slug)).toFinset := by
    intro s hs
    rw [List.mem_toFinset] at hs ⊢
    obtain ⟨i, hi, rfl⟩ := List.mem_map.mp hs
    exact htaken i (List.mem_range.mp hi)
  have hcard := Finset.card_le_card hsub
  rw [List.toFinset_card_of_nodup hnodup] at hcard
  have hle := List.toFinset_card_le (db.jobs.map (·.slug))
  simp only [List.length_map, List.length_range] at hcard hle
  omega

lemma createJob_fresh_slug (db : DB) (t : String) (now : Time)
    (hbase : DatabaseService.generateSlug t ≠ "") :
    (DatabaseService.createJob { title := some t } now db).1.slug =
      DatabaseService.slugLoop db (DatabaseService.generateSlug t)
        (DatabaseService.slugFuel db) 1 (DatabaseService.generateSlug t) ∧
    (DatabaseService.createJob { title := some t } now db).2.jobs =
      db.jobs ++ [(DatabaseService.createJob { title := some t } now db).1] := by
  have ht : t ≠ "" := by
    intro h
    apply hbase
    rw [h]
    rfl
  constructor <;>
    simp [DatabaseService.createJob, strTruthy, ht, hbase, Types.createJob, addJobRow]

lemma createJob_slug_not_taken (db : DB) (t : String) (now : Time)
    (hbase : DatabaseService.generateSlug t ≠ "") :
    (DatabaseService.createJob { title := some t } now db).1.slug ∉ db.jobs.map (·.slug) := by
  rw [(createJob_fresh_slug db t now hbase).1]
  have h2 := (isSlugUnique_none_iff db _).mp
    (slugLoop_not_taken db (DatabaseService.generateSlug t))
  have h3 := List.find?_eq_none.mp h2
  intro hmem
  obtain ⟨x, hx, hxs⟩ := List.mem_map.mp hmem
  have h4 := h3 x hx
  simp only [decide_eq_true_eq] at h4
  exact h4 hxs

lemma createJob_slug_shape (db : DB) (t : String) (now : Time)
    (hbase : DatabaseService.generateSlug t ≠ "") :
    matchesSlugPattern (DatabaseService.generateSlug t)
      (DatabaseService.createJob { title := some t } now db).1.slug := by
  rw [(createJob_fresh_slug db t now hbase).1]
  rcases slugLoop_shape db (DatabaseService.generateSlug t) (DatabaseService.slugFuel db) 1
      (DatabaseService.generateSlug t) with h | ⟨k, hk⟩
  · exact .inl h
  · refine .inr ⟨(natDecimal k).data, (natDecimal_digits k).1,
      (natDecimal_digits k).2, ?_⟩
    rw [hk]

lemma createJobSeq_spec (t : String) (hbase : DatabaseService.generateSlug t ≠ "") :
    ∀ (n : Nat) (db : DB),
      ((createJobSeq t n db).1.map (·.slug)).Pairwise (· ≠ ·) ∧
      ((createJobSeq t n db).1.map (·.slug)).Forall
        (matchesSlugPattern (DatabaseService.generateSlug t)) ∧
      (createJobSeq t n db).2.jobs = db.jobs ++ (createJobSeq t n db).1 ∧
      (∀ j ∈ (createJobSeq t n db).1, j.slug ∉ db.jobs.map (·.slug)) := by
  intro n
  induction n with
  | zero =>
    intro db
    refine ⟨List.Pairwise.nil, trivial, by simp [createJobSeq], by simp [createJobSeq]⟩
  | succ m ih =>
    intro db
    have hseq : createJobSeq t (m + 1) db =
        ((DatabaseService.createJob { title := some t } 0 db).1 ::
            (createJobSeq t m (DatabaseService.createJob { title := some t } 0 db).2).1,
          (createJobSeq t m (DatabaseService.createJob { title := some t } 0 db).2).2) := rfl
    obtain ⟨ihp, ihf, ihjobs, ihnot⟩ := ih (DatabaseService.createJob { title := some t } 0 db).2
    have hjobs1 := (createJob_fresh_slug db t 0 hbase).2
    have hnot1 := createJob_slug_not_taken db t 0 hbase
    have hshape1 := createJob_slug_shape db t 0 hbase
    have hrest_not : ∀ j ∈ (createJobSeq t m (DatabaseService.createJob { title := some t } 0 db).2).1,
        j.slug ∉ db.jobs.map (·.slug) ∧
          j.slug ≠ (DatabaseService.createJob { title := some t } 0 db).1.slug := by
      intro j hj
      have h1 := ihnot j hj
      rw [hjobs1, List.map_append] at h1
      simp only [List.mem_append, not_or] at h1
      exact ⟨h1.1, by simpa using h1.2⟩
    rw [hseq]
    refine ⟨?_, ?_, ?_, ?_⟩
    · rw [List.map_cons, List.pairwise_cons]
      refine ⟨?_, ihp⟩
      intro s hs
      obtain ⟨j, hj, rfl⟩ := List.mem_map.mp hs
      exact fun h => (hrest_not j hj).2 h.symm
    · rw [List.map_cons]
      exact List.forall_cons _ _ _ |>.mpr ⟨hshape1, ihf⟩
    · rw [ihjobs, hjobs1, List.append_assoc]
      rfl
    · intro j hj
      rcases List.mem_cons.mp hj with rfl | hj'
      · exact hnot1
      · exact (hrest_not j hj').1

/-- Claim C4 counterexample: two `createJob` calls titled `"!!!"` (same title,
no caller-supplied slug).  `generateSlug` strips every character, the derived
slug `""` is falsy, so the uniqueness probe is skipped entirely and both jobs
are stored with the same empty slug — the claimed pairwise distinctness fails
for this title. -/
theorem c4_counterexample :
    (createJobSeq "!!!" 2 emptyDB).1.map (·.slug) = ["", ""] ∧
    ¬ ((createJobSeq "!!!" 2 emptyDB).1.map (·.slug)).Pairwise (· ≠ ·) := by
  decide

/-- Claim C4 (amended): for every sequence of `createJob` calls with the same
title and no caller-supplied slug, provided the title's derived base slug is
non-empty (it contains some alphanumeric character — otherwise the falsy slug
skips the probe and the slugs collide), the resulting slugs are pairwise
distinct and each matches the pattern base(-digits)?; concretely, three jobs
titled "Backend Engineer" get the slugs "backend-engineer",
"backend-engineer-1", "backend-engineer-2" in order. -/
theorem c4_slug_sequence :
    (∀ (db : DB) (t : String) (n : Nat), DatabaseService.generateSlug t ≠ "" →
      ((createJobSeq t n db).1.map (·.slug)).Pairwise (· ≠ ·) ∧
      ((createJobSeq t n db).1.map (·.slug)).Forall
        (matchesSlugPattern (DatabaseService.generateSlug t))) ∧
    (createJobSeq "Backend Engineer" 3 emptyDB).1.map (·.slug) =
      ["backend-engineer", "backend-engineer-1", "backend-engineer-2"] := by
  constructor
  · intro db t n hbase
    exact ⟨(createJobSeq_spec t hbase n db).1, (createJobSeq_spec t hbase n db).2.1⟩
  · decide

/-- Claim C4 witness: distinctness and pattern at a concrete title and store. -/
theorem c4_slug_sequence_witness :
    ((createJobSeq "X" 2 emptyDB).1.map (·.slug)).Pairwise (· ≠ ·) ∧
    ((createJobSeq "X" 2 emptyDB).1.map (·.slug)).Forall
      (matchesSlugPattern (DatabaseService.generateSlug "X")) :=
  c4_slug_sequence.1 emptyDB "X" 2 (by decide)
